import Mathlib

/-!
Verification of the lerobot evaluation scripts.

This file gives a shallow embedding of the behaviour-relevant parts of
`lerobot/scripts/eval.py`, `lerobot/scripts/eval_real.py` and
`lerobot/common/policies/diffusion/configuration_diffusion.py`, and proves
or refutes the specification claims about them.

Modelling conventions:
* numpy float arrays are modelled as `List ℚ` (the claims under study are
  about which entries contribute, not about rounding);
* Python exceptions are modelled with the `PyError` type and `Except`;
* per-batch-element rows of the stacked rollout arrays are modelled as
  lists indexed by step.
-/

set_option maxRecDepth 4000

/-- Python exception kinds that the modelled code can raise. -/
inductive PyError where
  | typeError
  | nameError
  | valueError
  | indexError
  | assertionError
deriving DecidableEq

/-! ## `rollout` in `eval.py`: the cumulative done flag

The loop keeps `done = terminated | truncated | done` (line 173), starting
from `done = [False] * num_envs`.  For one batch element, with `term i` and
`trunc i` the terminated/truncated flags produced by `env.step` at step `i`,
`doneAfter term trunc n` is the value of the flag after `n` steps. -/

def doneAfter (term trunc : ℕ → Bool) : ℕ → Bool
  | 0 => false
  | n + 1 => term n || trunc n || doneAfter term trunc n

/-- The `done` row recorded by `rollout` for one batch element over `n` steps:
`all_dones` receives the cumulative flag right after each update, so the entry
for step `i` is `doneAfter (i+1)`. -/
def rolloutDones (term trunc : ℕ → Bool) (n : ℕ) : List Bool :=
  (List.range n).map (fun i => doneAfter term trunc (i + 1))

/-! ## `eval_policy` in `eval.py`: first-done index and metric masking

`done_indices = np.argmax(rollout_data["done"], axis=1)` (line 292) returns,
per row, the index of the first `True` (and `0` for an all-`False` row, by
`argmax` semantics).  The mask (line 296) is `arange(n_steps) <= done_index + 1`
and is multiplied into the reward/success rows before the sum/max/any
reductions (lines 298-302). -/

/-- Position of the first `true` in the list, if any. -/
def firstTrue : List Bool → Option ℕ
  | [] => none
  | b :: rest => if b then some 0 else (firstTrue rest).map (fun i => i + 1)

def doneIndex (done : List Bool) : ℕ :=
  (firstTrue done).getD 0

/-- `row * mask` for a rational row: entries at positions `j` with
`j ≤ dI + 1` are kept, the rest are zeroed.  `j` is the position of the head
of the remaining list. -/
def maskedFrom (dI : ℕ) : ℕ → List ℚ → List ℚ
  | _, [] => []
  | j, x :: xs => (if j ≤ dI + 1 then x else 0) :: maskedFrom dI (j + 1) xs

/-- `row * mask` for a boolean row (numpy bool multiplication is AND). -/
def maskedBoolFrom (dI : ℕ) : ℕ → List Bool → List Bool
  | _, [] => []
  | j, x :: xs => (x && decide (j ≤ dI + 1)) :: maskedBoolFrom dI (j + 1) xs

def maskedRewards (done : List Bool) (reward : List ℚ) : List ℚ :=
  maskedFrom (doneIndex done) 0 reward

def maskedSuccesses (done : List Bool) (success : List Bool) : List Bool :=
  maskedBoolFrom (doneIndex done) 0 success

/-- `einops.reduce(reward * mask, "b n -> b", "sum")` for one row. -/
def sum_reward (done : List Bool) (reward : List ℚ) : ℚ :=
  (maskedRewards done reward).sum

/-- `einops.reduce(reward * mask, "b n -> b", "max")` for one row
(`none` for an empty row, where numpy would raise). -/
def max_reward (done : List Bool) (reward : List ℚ) : Option ℚ :=
  (maskedRewards done reward).max?

/-- `einops.reduce(success * mask, "b n -> b", "any")` for one row. -/
def any_success (done : List Bool) (success : List Bool) : Bool :=
  (maskedSuccesses done success).any (fun b => b)

/-! ## `_compile_episode_data` in `eval.py` (lines 397-449)

One batch element's slice of `rollout_data` (the rows the compiler reads).
Actions and observations are kept abstract (`α`, `ω`); the `obs` row has one
more entry than the others (the extra terminal observation). -/

structure EpRollout (α ω : Type) where
  action : List α
  reward : List ℚ
  success : List Bool
  done : List Bool
  obs : List ω
deriving DecidableEq

/-- One compiled `ep_dict` (lines 414-439). -/
structure EpDict (α ω : Type) where
  action : List α
  episode_index : List ℤ
  frame_index : List ℤ
  timestamp : List ℚ
  next_done : List Bool
  next_success : List Bool
  next_reward : List ℚ
  obs : List ω
deriving DecidableEq

/-- `np.concatenate([x, x[-1:]])` (line 428): duplicate the final entry. -/
def copyPad {α : Type} (l : List α) : List α :=
  match l.getLast? with
  | none => l
  | some x => l ++ [x]

/-- `np.append(x, x[-1] + step)` (line 431). -/
def padPlus (step : ℚ) (l : List ℚ) : List ℚ :=
  match l.getLast? with
  | none => l
  | some x => l ++ [x + step]

/-- `np.append(x, x[-1] + 1)` (line 434). -/
def padPlusInt (l : List ℤ) : List ℤ :=
  match l.getLast? with
  | none => l
  | some x => l ++ [x + 1]

/-- The `ep_dict` built for episode `ep_ix` with done index `dI`
(`num_frames = dI + 2`, lines 408-439). -/
def compileEp {α ω : Type} (fps : ℚ) (sei : ℤ) (ep_ix : ℕ)
    (rd : EpRollout α ω) (dI : ℕ) : EpDict α ω :=
  let nm1 := dI + 1
  { action := copyPad (rd.action.take nm1)
    episode_index := copyPad (List.replicate nm1 (sei + ep_ix))
    frame_index := padPlusInt ((List.range nm1).map (fun i => (i : ℤ)))
    timestamp := padPlus (1 / fps) ((List.range nm1).map (fun i => (i : ℚ) / fps))
    next_done := copyPad (rd.done.take nm1)
    next_success := copyPad (rd.success.take nm1)
    next_reward := copyPad (rd.reward.take nm1)
    obs := rd.obs.take (dI + 2) }

/-- `np.arange(s, s + n)` over the integers. -/
def intRange (s : ℤ) : ℕ → List ℤ
  | 0 => []
  | n + 1 => s :: intRange (s + 1) n

/-- The dict returned by `_compile_episode_data`: all `ep_dict`s concatenated
key-wise, plus the global `index` column (line 447). -/
structure BatchRecord (α ω : Type) where
  action : List α
  episode_index : List ℤ
  frame_index : List ℤ
  timestamp : List ℚ
  next_done : List Bool
  next_success : List Bool
  next_reward : List ℚ
  obs : List ω
  idx : List ℤ
deriving DecidableEq

def compileEpisodesFrom {α ω : Type} (fps : ℚ) (sei : ℤ) :
    ℕ → List (EpRollout α ω × ℕ) → List (EpDict α ω)
  | _, [] => []
  | ix, (rd, dI) :: rest => compileEp fps sei ix rd dI :: compileEpisodesFrom fps sei (ix + 1) rest

/-- `total_frames`: sum over episodes of `done_index + 2` (lines 410-411). -/
def totalFrames {α ω : Type} (eps : List (EpRollout α ω × ℕ)) : ℕ :=
  (eps.map (fun p => p.2 + 2)).sum

/-- `_compile_episode_data(rollout_data, done_indices, start_episode_index,
start_data_index, fps)`; `eps` pairs each batch element's rollout rows with
its done index. -/
def compile_episode_data {α ω : Type} (fps : ℚ) (sei sdi : ℤ)
    (eps : List (EpRollout α ω × ℕ)) : BatchRecord α ω :=
  let ds := compileEpisodesFrom fps sei 0 eps
  { action := (ds.map (fun d => d.action)).flatten
    episode_index := (ds.map (fun d => d.episode_index)).flatten
    frame_index := (ds.map (fun d => d.frame_index)).flatten
    timestamp := (ds.map (fun d => d.timestamp)).flatten
    next_done := (ds.map (fun d => d.next_done)).flatten
    next_success := (ds.map (fun d => d.next_success)).flatten
    next_reward := (ds.map (fun d => d.next_reward)).flatten
    obs := (ds.map (fun d => d.obs)).flatten
    idx := intRange sdi (totalFrames eps) }

/-! ## `eval_policy` in `eval.py`: batching and episode-data accumulation -/

/-- `n_episodes // env.num_envs + int((n_episodes % env.num_envs) != 0)`
(line 238). -/
def n_batches (n_episodes num_envs : ℕ) : ℕ :=
  n_episodes / num_envs + (if n_episodes % num_envs ≠ 0 then 1 else 0)

/-- Key-wise `torch.cat` of two episode-data dicts (line 325). -/
def recordAppend {α ω : Type} (d e : BatchRecord α ω) : BatchRecord α ω :=
  { action := d.action ++ e.action
    episode_index := d.episode_index ++ e.episode_index
    frame_index := d.frame_index ++ e.frame_index
    timestamp := d.timestamp ++ e.timestamp
    next_done := d.next_done ++ e.next_done
    next_success := d.next_success ++ e.next_success
    next_reward := d.next_reward ++ e.next_reward
    obs := d.obs ++ e.obs
    idx := d.idx ++ e.idx }

/-- `episode_data["index"][-1].item() + 1` (line 315); the list is never
empty on this path. -/
def lastIdxSucc {α ω : Type} (d : BatchRecord α ω) : ℤ :=
  match d.idx.getLast? with
  | some v => v + 1
  | none => 0

def isOkE {ε α : Type} : Except ε α → Bool
  | .ok _ => true
  | .error _ => false

/-- The `return_episode_data` branch of the `eval_policy` batch loop
(lines 310-325): compile each batch with `start_episode_index =
batch_ix * num_envs`, check the two `assert`s against the accumulated data,
then concatenate.  An assertion failure is `PyError.assertionError`. -/
def episodeAccumGo {α ω : Type} (fps : ℚ) (ne : ℕ) :
    ℕ → Option (BatchRecord α ω) → List (List (EpRollout α ω × ℕ)) →
    Except PyError (Option (BatchRecord α ω))
  | _, acc, [] => .ok acc
  | bix, none, b :: rest =>
    episodeAccumGo fps ne (bix + 1)
      (some (compile_episode_data fps ((bix : ℤ) * ne) 0 b)) rest
  | bix, some d, b :: rest =>
    let cur := compile_episode_data fps ((bix : ℤ) * ne) (lastIdxSucc d) b
    if (d.episode_index.getLast?).map (fun v => v + 1) = cur.episode_index.head? ∧
        (d.idx.getLast?).map (fun v => v + 1) = cur.idx.head? then
      episodeAccumGo fps ne (bix + 1) (some (recordAppend d cur)) rest
    else .error .assertionError

/-- The per-batch metric lists are extended by `env.num_envs` entries per
batch; the full `sum_rewards`/`max_rewards`/`all_successes` list after
`n_batches` batches. -/
def producedMetrics (batchVals : ℕ → List ℚ) (nb : ℕ) : List ℚ :=
  ((List.range nb).map batchVals).flatten

/-- `float(np.nanmean(xs[:n_episodes]))` for a NaN-free list (lines 380-382). -/
def avgOver (nep : ℕ) (xs : List ℚ) : ℚ :=
  (xs.take nep).sum / nep

/-! ## `eval_policy` seed bookkeeping (lines 274-307, 360-378) -/

/-- `all_seeds` after `nb` batches: per batch, `all_seeds.extend(seeds)` when
`seeds` is truthy (a non-empty range), otherwise a single `all_seeds.append(None)`. -/
def seedsAccum (start_seed : Option ℤ) (ne : ℕ) : ℕ → List (Option ℤ)
  | 0 => []
  | b + 1 =>
    seedsAccum start_seed ne b ++
      (match start_seed with
       | none => [none]
       | some s0 =>
         if ne = 0 then [none]
         else (List.range ne).map (fun i => some (s0 + ((b : ℤ) * ne + i))))

/-- Python `zip(..., strict=True)` over four lists: `ValueError` when the
lengths differ. -/
def zip4Strict {a b c d : Type} :
    List a → List b → List c → List d → Except PyError (List (a × b × c × d))
  | [], [], [], [] => .ok []
  | x :: xs, y :: ys, z :: zs, w :: ws =>
    match zip4Strict xs ys zs ws with
    | .ok r => .ok ((x, y, z, w) :: r)
    | .error e => .error e
  | _, _, _, _ => .error .valueError

/-- The `per_episode` comprehension (lines 361-378): strict zip of the four
truncated metric lists. -/
def per_episode_build (nep : ℕ) (sums maxs : List ℚ) (succs : List Bool)
    (seeds : List (Option ℤ)) : Except PyError (List (ℚ × ℚ × Bool × Option ℤ)) :=
  zip4Strict (sums.take nep) (maxs.take nep) (succs.take nep) (seeds.take nep)

/-! ## `DiffusionConfig.__post_init__` and `main` validation -/

/-- Python `str.startswith`. -/
def pyStartsWith (s pre : String) : Bool :=
  pre.data.isPrefixOf s.data

/-- The validation-relevant fields of `DiffusionConfig`; `input_shapes` is the
dict as an association list. -/
structure DiffusionConfig where
  vision_backbone : String
  crop_shape : Option (ℕ × ℕ)
  input_shapes : List (String × List ℕ)
  prediction_type : String
  noise_scheduler_type : String
deriving DecidableEq

/-- The crop-shape loop (lines 152-162): for each `observation.image*` key,
compare `crop_shape[0] > shape[1] or crop_shape[1] > shape[2]`
(short-circuit; a positive index access out of range is `IndexError`, guarded
here by the length tests); `ok true` means a violation was found (the code
raises `ValueError` there). -/
def cropCheck (ch cw : ℕ) : List (String × List ℕ) → Except PyError Bool
  | [] => .ok false
  | (k, shape) :: rest =>
    if pyStartsWith k "observation.image" then
      if shape.length ≤ 1 then .error .indexError
      else if ch > shape.getD 1 0 then .ok true
      else if shape.length ≤ 2 then .error .indexError
      else if cw > shape.getD 2 0 then .ok true
      else cropCheck ch cw rest
    else cropCheck ch cw rest

/-- The prediction-type and noise-scheduler checks (lines 163-173): raise
unless the prediction type is in `["epsilon", "sample"]` and the scheduler is
in `["DDPM", "DDIM"]`. -/
def validPredSched (c : DiffusionConfig) : Except PyError Unit :=
  if ["epsilon", "sample"].contains c.prediction_type then
    if ["DDPM", "DDIM"].contains c.noise_scheduler_type then .ok ()
    else .error .valueError
  else .error .valueError

/-- `DiffusionConfig.__post_init__` (lines 145-173). -/
def postInit (c : DiffusionConfig) : Except PyError Unit :=
  if pyStartsWith c.vision_backbone "resnet" then
    match c.crop_shape with
    | none => validPredSched c
    | some (ch, cw) =>
      match cropCheck ch cw c.input_shapes with
      | .error e => .error e
      | .ok true => .error .valueError
      | .ok false => validPredSched c
  else .error .valueError

/-- The claim's "crop_shape exceeds an image input shape in either dimension",
read off the same comparisons. -/
def cropViolation (c : DiffusionConfig) : Bool :=
  match c.crop_shape with
  | none => false
  | some (ch, cw) =>
    c.input_shapes.any (fun p =>
      pyStartsWith p.1 "observation.image" &&
        (decide (ch > p.2.getD 1 0) || decide (cw > p.2.getD 2 0)))

/-- The start of `eval.py`'s `main` (lines 458-487): the batch-size check
(line 464) runs before `make_env` (line 487).  The first component records
which externally visible construction steps ran. -/
def evalMainTrace (batch_size n_episodes : ℕ) : List String × Except PyError Unit :=
  if batch_size > n_episodes then ([], .error .valueError)
  else (["make_env"], .ok ())

/-! ## The hardware rollout loop in `eval_real.py` -/

/-- `rollout`'s default `relative_actions_max` (line 40). -/
def rollout_default_relative_actions_max : Option ℚ := none

/-- `rollout`'s default `max_steps` (line 41); the `__main__` entry point
(lines 325-332) does not pass it. -/
def rollout_default_max_steps : Option ℕ := none

/-- The action-selection block (lines 169-187): pick this cycle's action and
cache the next one from `action_sequence`; result is
`(action, next_action, is_dropped_cycle)`.  At step 0, indexing a `None`
sequence is `TypeError` and an empty one `IndexError`. -/
def selectBufferedAction (step : ℕ) (next_action : ℚ) (seq : Option (List ℚ)) :
    Except PyError (ℚ × ℚ × Bool) :=
  if step = 0 then
    match seq with
    | none => .error .typeError
    | some [] => .error .indexError
    | some [a0] => .ok (a0, a0, true)
    | some (a0 :: a1 :: _) => .ok (a0, a1, false)
  else
    match seq with
    | some (_ :: a1 :: _) => .ok (next_action, a1, false)
    | _ => .ok (next_action, next_action, true)

/-- The loop state threaded between control cycles; `relative_action` is the
Python local of that name (`none` while unbound, reading it then is
`NameError`). -/
structure RealState where
  step : ℕ
  next_action : ℚ
  relative_action : Option ℚ
  next_done : List Bool
  actions : List ℚ
deriving DecidableEq

structure IterResult where
  state : RealState
  applied : ℚ
  dropped : Bool
  brk : Bool
deriving DecidableEq

/-- `episodes_data["next.done"][-1] = True` (line 235). -/
def setLastTrue : List Bool → Except PyError (List Bool)
  | [] => .error .indexError
  | x :: xs => .ok ((x :: xs).set ((x :: xs).length - 1) true)

/-- One iteration of the `while True` control loop (lines 69-238), keeping
the state-relevant effects: the non-warmup data appends (only `next.done`
matters for control flow), action selection, the send branch with the
`relative_action` read (line 220), the quit check (line 228), the step
increment (line 232), the `step >= max_steps` comparison (line 234, a
`TypeError` when `max_steps` is `None`), and the break condition (line 237).
Inputs: the cycle's warmup classification, quit signal, computed success
flag, and the action sequence returned by the policy wrapper. -/
def realIter (ram : Option ℚ) (max_steps : Option ℕ) (_follower_pos : ℚ)
    (is_warmup quit success : Bool) (seq : Option (List ℚ)) (st : RealState) :
    Except PyError IterResult :=
  let done1 := if ¬ is_warmup ∧ 0 < st.step then st.next_done ++ [success] else st.next_done
  match selectBufferedAction st.step st.next_action seq with
  | .error e => .error e
  | .ok (action, next_act, dropped) =>
    let sendRes : Except PyError (List ℚ × Option ℚ) :=
      if is_warmup then .ok (st.actions, st.relative_action)
      else
        match ram with
        | some m =>
          let rel := max (-m) (min action m)
          .ok (st.actions ++ [rel], some rel)
        | none =>
          match st.relative_action with
          | none => .error .nameError
          | some rel => .ok (st.actions ++ [rel], some rel)
    match sendRes with
    | .error e => .error e
    | .ok (actions2, relBound) =>
      if quit then
        .ok ⟨{ st with
                 next_done := done1
                 actions := actions2
                 relative_action := relBound },
             action, dropped, true⟩
      else
        let step2 := if ¬ is_warmup then st.step + 1 else st.step
        match max_steps with
        | none => .error .typeError
        | some ms =>
          let done2res : Except PyError (List Bool) :=
            if step2 ≥ ms then setLastTrue done1 else .ok done1
          match done2res with
          | .error e => .error e
          | .ok done2 =>
            .ok ⟨{ step := step2
                   next_action := next_act
                   relative_action := relBound
                   next_done := done2
                   actions := actions2 },
                 action, dropped, done2.getLastD false⟩

/-- A concrete one-step rollout row (integer actions and observations) used
to instantiate the episode-compilation theorems. -/
def rdW : EpRollout ℤ ℤ :=
  ⟨[10], [1], [false], [true], [100, 200]⟩

/-! ## Theorems -/

theorem doneAfter_mono (term trunc : ℕ → Bool) {i j : ℕ} (hij : i ≤ j)
    (hi : doneAfter term trunc i = true) : doneAfter term trunc j = true := by
  induction j with
  | zero =>
    have : i = 0 := Nat.le_zero.mp hij
    simpa [this] using hi
  | succ n ih =>
    rcases Nat.lt_or_ge i (n + 1) with h | h
    · have := ih (Nat.lt_succ_iff.mp h)
      simp [doneAfter, this]
    · have : i = n + 1 := Nat.le_antisymm hij h
      simpa [this] using hi

theorem rolloutDones_getD (term trunc : ℕ → Bool) {n i : ℕ} (h : i < n) :
    (rolloutDones term trunc n).getD i false = doneAfter term trunc (i + 1) := by
  simp [rolloutDones, List.getD, List.getElem?_map, List.getElem?_range h]

theorem maskedFrom_congr (dI : ℕ) :
    ∀ (j : ℕ) (r r' : List ℚ), r.length = r'.length →
    (∀ k : ℕ, j + k ≤ dI + 1 → r.getD k 0 = r'.getD k 0) →
    maskedFrom dI j r = maskedFrom dI j r'
  | _, [], [], _, _ => rfl
  | j, x :: xs, y :: ys, hlen, hagree => by
    have hxy : j ≤ dI + 1 → x = y := fun hj => by
      simpa using hagree 0 (by omega)
    have htail : maskedFrom dI (j + 1) xs = maskedFrom dI (j + 1) ys := by
      refine maskedFrom_congr dI (j + 1) xs ys (by simpa using hlen) ?_
      intro k hk
      simpa using hagree (k + 1) (by omega)
    by_cases hj : j ≤ dI + 1
    · simp [maskedFrom, hj, hxy hj, htail]
    · simp [maskedFrom, hj, htail]

theorem maskedBoolFrom_congr (dI : ℕ) :
    ∀ (j : ℕ) (s s' : List Bool), s.length = s'.length →
    (∀ k : ℕ, j + k ≤ dI + 1 → s.getD k false = s'.getD k false) →
    maskedBoolFrom dI j s = maskedBoolFrom dI j s'
  | _, [], [], _, _ => rfl
  | j, x :: xs, y :: ys, hlen, hagree => by
    have htail : maskedBoolFrom dI (j + 1) xs = maskedBoolFrom dI (j + 1) ys := by
      refine maskedBoolFrom_congr dI (j + 1) xs ys (by simpa using hlen) ?_
      intro k hk
      simpa using hagree (k + 1) (by omega)
    by_cases hj : j ≤ dI + 1
    · have hxy : x = y := by simpa using hagree 0 (by omega)
      simp [maskedBoolFrom, hj, hxy, htail]
    · simp [maskedBoolFrom, hj, htail]

/-! ### C2: stickiness of the cumulative done flag -/

/-- C2: in every batched rollout, the `done` row recorded by `rollout` is
sticky per batch element: each step's flag is the OR of the previous flag
with this step's terminated/truncated flags, so once it is `true` at step `i`
it is `true` at every recorded step `j ≥ i`. -/
theorem rollout_done_sticky (term trunc : ℕ → Bool) (n i j : ℕ)
    (hij : i ≤ j) (hj : j < n)
    (hi : (rolloutDones term trunc n).getD i false = true) :
    (rolloutDones term trunc n).getD j false = true := by
  have hin : i < n := lt_of_le_of_lt hij hj
  rw [rolloutDones_getD term trunc hin] at hi
  rw [rolloutDones_getD term trunc hj]
  exact doneAfter_mono term trunc (by omega) hi

/-- Witness for `rollout_done_sticky`: an element that terminates at step 1
of a 4-step rollout stays done at step 3. -/
theorem rollout_done_sticky_witness :
    (1 ≤ 3 ∧ 3 < 4 ∧
      (rolloutDones (fun k => decide (k = 1)) (fun _ => false) 4).getD 1 false = true) ∧
    (rolloutDones (fun k => decide (k = 1)) (fun _ => false) 4).getD 3 false = true :=
  ⟨by decide, rollout_done_sticky _ _ 4 1 3 (by decide) (by decide) (by decide)⟩

/-! ### C1: which steps contribute to the aggregated metrics -/

/-- C1 is false as stated: the mask `arange(n_steps) <= done_index + 1` keeps
the step `done_index + 1`, which lies strictly after the first `True` of the
cumulative done mask.  Concretely, with done row `[True, True]` the first done
step is 0, yet a reward of 5 at step 1 changes `sum_reward` from 0 to 5. -/
theorem eval_metrics_after_first_done_counterexample :
    doneIndex [true, true] = 0 ∧
    sum_reward [true, true] [0, 5] = 5 ∧
    sum_reward [true, true] [0, 0] = 0 ∧
    sum_reward [true, true] [0, 5] ≠ sum_reward [true, true] [0, 0] := by
  refine ⟨by decide, ?_, ?_, ?_⟩ <;>
    norm_num [sum_reward, maskedRewards, maskedFrom, doneIndex, firstTrue]

/-- C1 (amended): the aggregated per-episode metrics are computed only from
steps up to and including `done_index + 1` (the code keeps one step past the
first `True` as the retained terminal transition): any reward or success
value at a step strictly after `done_index + 1` contributes nothing,
regardless of its raw value. -/
theorem eval_metrics_mask_amended (done : List Bool) (r r' : List ℚ)
    (s s' : List Bool)
    (hr : r.length = r'.length) (hs : s.length = s'.length)
    (hragree : ∀ j : ℕ, j ≤ doneIndex done + 1 → r.getD j 0 = r'.getD j 0)
    (hsagree : ∀ j : ℕ, j ≤ doneIndex done + 1 → s.getD j false = s'.getD j false) :
    sum_reward done r = sum_reward done r' ∧
    max_reward done r = max_reward done r' ∧
    any_success done s = any_success done s' := by
  have hmr : maskedRewards done r = maskedRewards done r' :=
    maskedFrom_congr _ 0 r r' hr (fun k hk => hragree k (by omega))
  have hms : maskedSuccesses done s = maskedSuccesses done s' :=
    maskedBoolFrom_congr _ 0 s s' hs (fun k hk => hsagree k (by omega))
  refine ⟨?_, ?_, ?_⟩
  · simp only [sum_reward, hmr]
  · simp only [max_reward, hmr]
  · simp only [any_success, hms]

/-- Witness for `eval_metrics_mask_amended`: done row `[False, True, False]`
has first done step 1, so steps 0..2 are kept; rows differing only at step 3
yield identical metrics. -/
theorem eval_metrics_mask_amended_witness :
    sum_reward [false, true, false] [1, 2, 3, 4] =
      sum_reward [false, true, false] [1, 2, 3, 9] ∧
    max_reward [false, true, false] [1, 2, 3, 4] =
      max_reward [false, true, false] [1, 2, 3, 9] ∧
    any_success [false, true, false] [false, true, false, false] =
      any_success [false, true, false] [false, true, false, true] :=
  eval_metrics_mask_amended [false, true, false] _ _ _ _ (by decide) (by decide)
    (by
      intro j hj
      norm_num [doneIndex, firstTrue] at hj
      interval_cases j <;> rfl)
    (by
      intro j hj
      norm_num [doneIndex, firstTrue] at hj
      interval_cases j <;> rfl)

/-! ### C3: the copy-padded terminal frame -/

theorem copyPad_of_ne_nil {α : Type} (l : List α) (h : l ≠ []) :
    (copyPad l).getLast? = l.getLast? ∧ (copyPad l).dropLast = l := by
  obtain ⟨x, hx⟩ := Option.isSome_iff_exists.mp (List.getLast?_isSome.mpr h)
  simp [copyPad, hx, List.getLast?_concat, List.dropLast_concat]

theorem padPlus_spec (stp : ℚ) (l : List ℚ) (h : l ≠ []) :
    (padPlus stp l).getLast? = (l.getLast?).map (fun x => x + stp) ∧
    (padPlus stp l).dropLast = l := by
  obtain ⟨x, hx⟩ := Option.isSome_iff_exists.mp (List.getLast?_isSome.mpr h)
  simp [padPlus, hx, List.getLast?_concat, List.dropLast_concat]

theorem padPlusInt_spec (l : List ℤ) (h : l ≠ []) :
    (padPlusInt l).getLast? = (l.getLast?).map (fun x => x + 1) ∧
    (padPlusInt l).dropLast = l := by
  obtain ⟨x, hx⟩ := Option.isSome_iff_exists.mp (List.getLast?_isSome.mpr h)
  simp [padPlusInt, hx, List.getLast?_concat, List.dropLast_concat]

theorem intRange_concat (n : ℕ) : ∀ s : ℤ, intRange s (n + 1) = intRange s n ++ [s + n] := by
  induction n with
  | zero => intro s; simp [intRange]
  | succ k ih =>
    intro s
    have hc : ((k : ℤ) + 1) = ((k + 1 : ℕ) : ℤ) := by push_cast; ring
    calc intRange s (k + 2) = s :: intRange (s + 1) (k + 1) := rfl
      _ = s :: (intRange (s + 1) k ++ [s + 1 + k]) := by rw [ih (s + 1)]
      _ = (s :: intRange (s + 1) k) ++ [s + (k + 1)] := by
          simp [List.cons_append]; ring
      _ = intRange s (k + 1) ++ [s + (k + 1 : ℕ)] := by rw [← hc]; rfl

theorem totalFrames_ge_two {α ω : Type} (eps : List (EpRollout α ω × ℕ))
    (h : eps ≠ []) : 2 ≤ totalFrames eps := by
  match eps, h with
  | p :: rest, _ =>
    have : totalFrames (p :: rest) = p.2 + 2 + totalFrames rest := by
      simp [totalFrames]
    omega

/-- C3 is false as stated: in the record compiled by `_compile_episode_data`,
the last two frames also differ in the global `index` field (always, by 1)
and in the observation fields (the final frame holds the extra terminal
observation, not a copy).  Concretely: one episode with done index 0, action
row `[10]`, observation row `[100, 200]`, `fps = 1`. -/
theorem compile_episode_last_frames_counterexample :
    (compile_episode_data (α := ℤ) (ω := ℤ) 1 0 0
        [(⟨[10], [1], [false], [true], [100, 200]⟩, 0)]).obs.getLast? ≠
      (compile_episode_data (α := ℤ) (ω := ℤ) 1 0 0
        [(⟨[10], [1], [false], [true], [100, 200]⟩, 0)]).obs.dropLast.getLast? ∧
    (compile_episode_data (α := ℤ) (ω := ℤ) 1 0 0
        [(⟨[10], [1], [false], [true], [100, 200]⟩, 0)]).idx.getLast? ≠
      (compile_episode_data (α := ℤ) (ω := ℤ) 1 0 0
        [(⟨[10], [1], [false], [true], [100, 200]⟩, 0)]).idx.dropLast.getLast? := by
  constructor <;> decide

/-- C3 (amended): for every compiled episode record, the last two frames are
identical in the copy-padded fields (`action`, `episode_index`, `next.done`,
`next.success`, `next.reward`); `timestamp` advances by exactly `1 / fps`,
`frame_index` by exactly 1, and the global `index` column by exactly 1, while
the observation fields end with the genuinely new terminal observation (see
the counterexample). -/
theorem compile_episode_copy_pad_amended {α ω : Type} (fps : ℚ) (sei : ℤ)
    (ep_ix : ℕ) (rd : EpRollout α ω) (dI : ℕ) (sdi : ℤ)
    (eps : List (EpRollout α ω × ℕ))
    (ha : rd.action ≠ []) (hd : rd.done ≠ []) (hs : rd.success ≠ [])
    (hr : rd.reward ≠ []) (heps : eps ≠ []) :
    (compileEp fps sei ep_ix rd dI).action.getLast? =
      (compileEp fps sei ep_ix rd dI).action.dropLast.getLast? ∧
    (compileEp fps sei ep_ix rd dI).episode_index.getLast? =
      (compileEp fps sei ep_ix rd dI).episode_index.dropLast.getLast? ∧
    (compileEp fps sei ep_ix rd dI).next_done.getLast? =
      (compileEp fps sei ep_ix rd dI).next_done.dropLast.getLast? ∧
    (compileEp fps sei ep_ix rd dI).next_success.getLast? =
      (compileEp fps sei ep_ix rd dI).next_success.dropLast.getLast? ∧
    (compileEp fps sei ep_ix rd dI).next_reward.getLast? =
      (compileEp fps sei ep_ix rd dI).next_reward.dropLast.getLast? ∧
    (compileEp fps sei ep_ix rd dI).timestamp.getLast? =
      ((compileEp fps sei ep_ix rd dI).timestamp.dropLast.getLast?).map
        (fun t => t + 1 / fps) ∧
    (compileEp fps sei ep_ix rd dI).frame_index.getLast? =
      ((compileEp fps sei ep_ix rd dI).frame_index.dropLast.getLast?).map
        (fun i => i + 1) ∧
    (compile_episode_data fps sei sdi eps).idx.getLast? =
      ((compile_episode_data fps sei sdi eps).idx.dropLast.getLast?).map
        (fun i => i + 1) := by
  have htake : ∀ {β : Type} (l : List β), l ≠ [] → l.take (dI + 1) ≠ [] := by
    intro β l hl
    simp [List.take_eq_nil_iff, hl]
  have hrep : List.replicate (dI + 1) (sei + ep_ix) ≠ [] := by
    simp [List.replicate]
  have hrng : (List.range (dI + 1)).map (fun i => ((i : ℤ))) ≠ [] := by
    simp [List.range_succ]
  have hrngq : (List.range (dI + 1)).map (fun i => ((i : ℚ)) / fps) ≠ [] := by
    simp [List.range_succ]
  refine ⟨?_, ?_, ?_, ?_, ?_, ?_, ?_, ?_⟩
  · have h := copyPad_of_ne_nil _ (htake rd.action ha)
    simp only [compileEp, h.1, h.2]
  · have h := copyPad_of_ne_nil _ hrep
    simp only [compileEp, h.1, h.2]
  · have h := copyPad_of_ne_nil _ (htake rd.done hd)
    simp only [compileEp, h.1, h.2]
  · have h := copyPad_of_ne_nil _ (htake rd.success hs)
    simp only [compileEp, h.1, h.2]
  · have h := copyPad_of_ne_nil _ (htake rd.reward hr)
    simp only [compileEp, h.1, h.2]
  · have h := padPlus_spec (1 / fps) _ hrngq
    simp only [compileEp, h.1, h.2]
  · have h := padPlusInt_spec _ hrng
    simp only [compileEp, h.1, h.2]
  · obtain ⟨m, hm⟩ : ∃ m, totalFrames eps = m + 2 := by
      have := totalFrames_ge_two eps heps
      exact ⟨totalFrames eps - 2, by omega⟩
    have h1 : intRange sdi (m + 2) = (intRange sdi m ++ [sdi + m]) ++ [sdi + m + 1] := by
      rw [intRange_concat (m + 1) sdi, intRange_concat m sdi]
      push_cast
      ring_nf
    simp only [compile_episode_data, hm, h1, List.getLast?_concat, List.dropLast_concat]
    rfl

/-- Witness for `compile_episode_copy_pad_amended` at a concrete one-episode
record with `fps = 1`. -/
theorem compile_episode_copy_pad_amended_witness :
    (compileEp 1 0 0 rdW 0).action.getLast? =
      (compileEp 1 0 0 rdW 0).action.dropLast.getLast? ∧
    (compileEp 1 0 0 rdW 0).episode_index.getLast? =
      (compileEp 1 0 0 rdW 0).episode_index.dropLast.getLast? ∧
    (compileEp 1 0 0 rdW 0).next_done.getLast? =
      (compileEp 1 0 0 rdW 0).next_done.dropLast.getLast? ∧
    (compileEp 1 0 0 rdW 0).next_success.getLast? =
      (compileEp 1 0 0 rdW 0).next_success.dropLast.getLast? ∧
    (compileEp 1 0 0 rdW 0).next_reward.getLast? =
      (compileEp 1 0 0 rdW 0).next_reward.dropLast.getLast? ∧
    (compileEp 1 0 0 rdW 0).timestamp.getLast? =
      ((compileEp 1 0 0 rdW 0).timestamp.dropLast.getLast?).map
        (fun t => t + 1 / 1) ∧
    (compileEp 1 0 0 rdW 0).frame_index.getLast? =
      ((compileEp 1 0 0 rdW 0).frame_index.dropLast.getLast?).map
        (fun i => i + 1) ∧
    (compile_episode_data 1 0 0 [(rdW, 0)]).idx.getLast? =
      ((compile_episode_data 1 0 0 [(rdW, 0)]).idx.dropLast.getLast?).map
        (fun i => i + 1) :=
  compile_episode_copy_pad_amended 1 0 0 rdW 0 0 [(rdW, 0)]
    (by decide) (by decide) (by decide) (by decide) (by decide)

/-! ### C4: batch count and truncation to `n_episodes` -/

theorem n_batches_mul_ge (nep ne : ℕ) (hne : 1 ≤ ne) :
    nep ≤ n_batches nep ne * ne := by
  by_cases h : nep % ne = 0
  · have hdvd : ne ∣ nep := Nat.dvd_of_mod_eq_zero h
    have : nep / ne * ne = nep := Nat.div_mul_cancel hdvd
    simp [n_batches, h, this]
  · have h2 : nep % ne < ne := Nat.mod_lt _ (by omega)
    have h1 := Nat.div_add_mod nep ne
    calc nep = ne * (nep / ne) + nep % ne := h1.symm
      _ ≤ ne * (nep / ne) + ne := by omega
      _ = (nep / ne + 1) * ne := by ring
      _ = n_batches nep ne * ne := by simp [n_batches, h]

theorem n_batches_eq_ceil (nep ne : ℕ) (hne : 1 ≤ ne) :
    n_batches nep ne = (nep + ne - 1) / ne := by
  have h1 := Nat.div_add_mod nep ne
  have h2 : nep % ne < ne := Nat.mod_lt _ (by omega)
  by_cases h : nep % ne = 0
  · have e : nep + ne - 1 = (ne - 1) + (nep / ne) * ne := by
      have : (nep / ne) * ne = ne * (nep / ne) := by ring
      omega
    rw [e, Nat.add_mul_div_right _ _ (by omega : 0 < ne),
      Nat.div_eq_of_lt (by omega)]
    simp [n_batches, h]
  · obtain ⟨rr, hrr⟩ : ∃ rr, nep % ne = rr + 1 := ⟨nep % ne - 1, by omega⟩
    have e : nep + ne - 1 = rr + (nep / ne + 1) * ne := by
      have : (nep / ne + 1) * ne = ne * (nep / ne) + ne := by ring
      omega
    rw [e, Nat.add_mul_div_right _ _ (by omega : 0 < ne),
      Nat.div_eq_of_lt (by omega)]
    simp [n_batches, h]

theorem producedMetrics_length (batchVals : ℕ → List ℚ) (nb ne : ℕ)
    (hlen : ∀ b, (batchVals b).length = ne) :
    (producedMetrics batchVals nb).length = nb * ne := by
  induction nb with
  | zero => simp [producedMetrics]
  | succ k ih =>
    have : producedMetrics batchVals (k + 1) =
        producedMetrics batchVals k ++ batchVals k := by
      simp [producedMetrics, List.range_succ]
    rw [this, List.length_append, ih, hlen]
    ring

/-- C4: `eval_policy` runs exactly `ceil(n_episodes / num_envs)` rollout
batches; the produced metric lists have `n_batches * num_envs ≥ n_episodes`
entries, the `per_episode` list keeps exactly the first `n_episodes` of them,
and the aggregated statistics depend only on those first `n_episodes`
episodes (excess episodes of the final batch are discarded). -/
theorem eval_policy_n_episodes_exact (nep ne : ℕ) (hne : 1 ≤ ne)
    (_hnep : 1 ≤ nep) (batchSums other : ℕ → List ℚ)
    (hlen : ∀ b, (batchSums b).length = ne)
    (hother : (producedMetrics other (n_batches nep ne)).take nep =
      (producedMetrics batchSums (n_batches nep ne)).take nep) :
    n_batches nep ne = (nep + ne - 1) / ne ∧
    (producedMetrics batchSums (n_batches nep ne)).length = n_batches nep ne * ne ∧
    nep ≤ (producedMetrics batchSums (n_batches nep ne)).length ∧
    ((producedMetrics batchSums (n_batches nep ne)).take nep).length = nep ∧
    avgOver nep (producedMetrics other (n_batches nep ne)) =
      avgOver nep (producedMetrics batchSums (n_batches nep ne)) := by
  have hl := producedMetrics_length batchSums (n_batches nep ne) ne hlen
  have hge : nep ≤ (producedMetrics batchSums (n_batches nep ne)).length := by
    rw [hl]; exact n_batches_mul_ge nep ne hne
  refine ⟨n_batches_eq_ceil nep ne hne, hl, hge, ?_, ?_⟩
  · rw [List.length_take]; omega
  · simp [avgOver, hother]

/-- Witness for `eval_policy_n_episodes_exact`: the spec's own test case,
`n_episodes = 10`, `batch_size = 4` (3 batches, 12 produced episodes, the
last 2 discarded); the `other` metric stream differs from `batchSums` only
in the two discarded episodes. -/
theorem eval_policy_n_episodes_exact_witness :
    n_batches 10 4 = (10 + 4 - 1) / 4 ∧
    (producedMetrics (fun _ => [1, 2, 3, 4]) (n_batches 10 4)).length =
      n_batches 10 4 * 4 ∧
    10 ≤ (producedMetrics (fun _ => [1, 2, 3, 4]) (n_batches 10 4)).length ∧
    ((producedMetrics (fun _ => [1, 2, 3, 4]) (n_batches 10 4)).take 10).length = 10 ∧
    avgOver 10 (producedMetrics
        (fun b => if b = 2 then [1, 2, 99, 99] else [1, 2, 3, 4]) (n_batches 10 4)) =
      avgOver 10 (producedMetrics (fun _ => [1, 2, 3, 4]) (n_batches 10 4)) :=
  eval_policy_n_episodes_exact 10 4 (by decide) (by decide)
    (fun _ => [1, 2, 3, 4]) (fun b => if b = 2 then [1, 2, 99, 99] else [1, 2, 3, 4])
    (fun _ => rfl)
    (by decide)

/-! ### C5: episode/index continuity across batches -/

theorem getLast?_replicate_succ {α : Type} (n : ℕ) (a : α) :
    (List.replicate (n + 1) a).getLast? = some a := by
  induction n with
  | zero => rfl
  | succ k ih =>
    rw [List.replicate_succ, List.replicate_succ]
    rw [List.getLast?_cons_cons]
    rw [← List.replicate_succ]
    exact ih

theorem compileEp_episode_index {α ω : Type} (fps : ℚ) (sei : ℤ) (ep_ix : ℕ)
    (rd : EpRollout α ω) (dI : ℕ) :
    (compileEp fps sei ep_ix rd dI).episode_index =
      List.replicate (dI + 2) (sei + ep_ix) := by
  simp only [compileEp, copyPad, getLast?_replicate_succ]
  rw [← List.replicate_succ']

theorem intRange_head (s : ℤ) (n : ℕ) (h : 1 ≤ n) :
    (intRange s n).head? = some s := by
  match n, h with
  | k + 1, _ => rfl

theorem intRange_getLast (s : ℤ) (n : ℕ) :
    (intRange s (n + 1)).getLast? = some (s + n) := by
  rw [intRange_concat, List.getLast?_concat]

theorem compileEpisodesFrom_cons {α ω : Type} (fps : ℚ) (sei : ℤ) (ix : ℕ)
    (rd : EpRollout α ω) (dI : ℕ) (rest : List (EpRollout α ω × ℕ)) :
    compileEpisodesFrom fps sei ix ((rd, dI) :: rest) =
      compileEp fps sei ix rd dI :: compileEpisodesFrom fps sei (ix + 1) rest :=
  rfl

theorem compileEpisodesFrom_epIdx_head {α ω : Type} (fps : ℚ) (sei : ℤ) :
    ∀ (eps : List (EpRollout α ω × ℕ)) (ix : ℕ), eps ≠ [] →
    (((compileEpisodesFrom fps sei ix eps).map
      (fun d => d.episode_index)).flatten).head? = some (sei + ix)
  | [], _, h => absurd rfl h
  | (rd, dI) :: rest, ix, _ => by
    simp only [compileEpisodesFrom, List.map_cons, List.flatten_cons,
      compileEp_episode_index]
    rw [List.replicate_succ, List.cons_append, List.head?_cons]

theorem compileEpisodesFrom_epIdx_getLast {α ω : Type} (fps : ℚ) (sei : ℤ) :
    ∀ (eps : List (EpRollout α ω × ℕ)) (ix : ℕ), eps ≠ [] →
    (((compileEpisodesFrom fps sei ix eps).map
      (fun d => d.episode_index)).flatten).getLast? =
      some (sei + ix + ((eps.length - 1 : ℕ) : ℤ))
  | [], _, h => absurd rfl h
  | [(rd, dI)], ix, _ => by
    simp only [compileEpisodesFrom, List.map_cons, List.map_nil,
      List.flatten_cons, List.flatten_nil, List.append_nil,
      compileEp_episode_index, getLast?_replicate_succ, List.length_singleton]
    norm_num
  | (rd, dI) :: q :: rest, ix, _ => by
    have ih := compileEpisodesFrom_epIdx_getLast fps sei (q :: rest) (ix + 1)
      (by simp)
    have hne2 : (((compileEpisodesFrom fps sei (ix + 1) (q :: rest)).map
        (fun d => d.episode_index)).flatten) ≠ [] := by
      intro hc
      rw [hc] at ih
      simp at ih
    rw [compileEpisodesFrom_cons, List.map_cons, List.flatten_cons,
      List.getLast?_append_of_ne_nil _ hne2, ih]
    congr 1
    simp only [List.length_cons]
    push_cast [Nat.add_sub_cancel]
    ring

theorem compile_episode_data_epIdx_head {α ω : Type} (fps : ℚ) (sei sdi : ℤ)
    (eps : List (EpRollout α ω × ℕ)) (h : eps ≠ []) :
    (compile_episode_data fps sei sdi eps).episode_index.head? = some sei := by
  have := compileEpisodesFrom_epIdx_head fps sei eps 0 h
  simpa [compile_episode_data] using this

theorem compile_episode_data_epIdx_getLast {α ω : Type} (fps : ℚ) (sei sdi : ℤ)
    (eps : List (EpRollout α ω × ℕ)) (h : eps ≠ []) :
    (compile_episode_data fps sei sdi eps).episode_index.getLast? =
      some (sei + ((eps.length - 1 : ℕ) : ℤ)) := by
  have := compileEpisodesFrom_epIdx_getLast fps sei eps 0 h
  simpa [compile_episode_data] using this

theorem compile_episode_data_idx_head {α ω : Type} (fps : ℚ) (sei sdi : ℤ)
    (eps : List (EpRollout α ω × ℕ)) (h : eps ≠ []) :
    (compile_episode_data fps sei sdi eps).idx.head? = some sdi := by
  have h2 := totalFrames_ge_two eps h
  simp only [compile_episode_data]
  exact intRange_head sdi _ (by omega)

theorem compile_episode_data_idx_getLast_isSome {α ω : Type} (fps : ℚ)
    (sei sdi : ℤ) (eps : List (EpRollout α ω × ℕ)) (h : eps ≠ []) :
    (compile_episode_data fps sei sdi eps).idx.getLast?.isSome = true := by
  have h2 := totalFrames_ge_two eps h
  obtain ⟨m, hm⟩ : ∃ m, totalFrames eps = m + 1 := ⟨totalFrames eps - 1, by omega⟩
  simp only [compile_episode_data, hm, intRange_getLast, Option.isSome_some]

theorem episodeAccumGo_ok {α ω : Type} (fps : ℚ) (ne : ℕ) (hne : 1 ≤ ne) :
    ∀ (batches : List (List (EpRollout α ω × ℕ))) (bix : ℕ) (d : BatchRecord α ω),
    (∀ b ∈ batches, b.length = ne) →
    d.episode_index.getLast? = some ((bix : ℤ) * (ne : ℤ) - 1) →
    d.idx.getLast?.isSome = true →
    isOkE (episodeAccumGo fps ne bix (some d) batches) = true
  | [], bix, d, _, _, _ => by simp [episodeAccumGo, isOkE]
  | b :: rest, bix, d, hb, hepi, hidx => by
    obtain ⟨v, hv⟩ := Option.isSome_iff_exists.mp hidx
    have hblen : b.length = ne := hb b (by simp)
    have hbne : b ≠ [] := by
      intro hc
      rw [hc] at hblen
      simp at hblen
      omega
    have hsdi : lastIdxSucc d = v + 1 := by simp [lastIdxSucc, hv]
    have hcurhead :
        (compile_episode_data fps ((bix : ℤ) * ne) (lastIdxSucc d) b).episode_index.head? =
          some ((bix : ℤ) * ne) :=
      compile_episode_data_epIdx_head fps _ _ b hbne
    have hcuridxhead :
        (compile_episode_data fps ((bix : ℤ) * ne) (lastIdxSucc d) b).idx.head? =
          some (v + 1) := by
      rw [compile_episode_data_idx_head fps _ _ b hbne, hsdi]
    have hcond :
        ((d.episode_index.getLast?).map (fun w => w + 1) =
          (compile_episode_data fps ((bix : ℤ) * ne) (lastIdxSucc d) b).episode_index.head?) ∧
        ((d.idx.getLast?).map (fun w => w + 1) =
          (compile_episode_data fps ((bix : ℤ) * ne) (lastIdxSucc d) b).idx.head?) := by
      constructor
      · rw [hepi, hcurhead, Option.map_some']
        congr 1
        ring
      · rw [hv, hcuridxhead, Option.map_some']
    have hcurlast :
        (compile_episode_data fps ((bix : ℤ) * ne) (lastIdxSucc d) b).episode_index.getLast? =
          some (((bix + 1 : ℕ) : ℤ) * (ne : ℤ) - 1) := by
      rw [compile_episode_data_epIdx_getLast fps _ _ b hbne, hblen]
      congr 1
      have : ((ne - 1 : ℕ) : ℤ) = (ne : ℤ) - 1 := by
        push_cast [hne]
        ring
      rw [this]
      push_cast
      ring
    have hcurne :
        (compile_episode_data fps ((bix : ℤ) * ne) (lastIdxSucc d) b).episode_index ≠ [] := by
      intro hc
      rw [hc] at hcurhead
      simp at hcurhead
    have hcuridxne :
        (compile_episode_data fps ((bix : ℤ) * ne) (lastIdxSucc d) b).idx ≠ [] := by
      intro hc
      have := compile_episode_data_idx_getLast_isSome fps ((bix : ℤ) * ne) (lastIdxSucc d) b hbne
      rw [hc] at this
      simp at this
    have step : episodeAccumGo fps ne bix (some d) (b :: rest) =
        episodeAccumGo fps ne (bix + 1)
          (some (recordAppend d (compile_episode_data fps ((bix : ℤ) * ne) (lastIdxSucc d) b)))
          rest := by
      simp only [episodeAccumGo]
      rw [if_pos hcond]
    rw [step]
    refine episodeAccumGo_ok fps ne hne rest (bix + 1) _ (fun x hx => hb x (by simp [hx])) ?_ ?_
    · show (d.episode_index ++ _).getLast? = _
      rw [List.getLast?_append_of_ne_nil _ hcurne, hcurlast]
    · show (d.idx ++ _).getLast?.isSome = true
      rw [List.getLast?_append_of_ne_nil _ hcuridxne]
      exact compile_episode_data_idx_getLast_isSome fps _ _ b hbne

/-- C5: with `return_episode_data=True`, the episode data compiled across
consecutive batches always satisfies the two continuity `assert`s
(`episode_index` and global `index` continue by exactly one across every
batch boundary): the accumulation loop never raises `AssertionError` for any
number of batches. -/
theorem eval_policy_episode_data_continuity {α ω : Type} (fps : ℚ) (ne : ℕ)
    (batches : List (List (EpRollout α ω × ℕ))) (hne : 1 ≤ ne)
    (hb : ∀ b ∈ batches, b.length = ne) :
    isOkE (episodeAccumGo fps ne 0 (none : Option (BatchRecord α ω)) batches) = true := by
  cases batches with
  | nil => simp [episodeAccumGo, isOkE]
  | cons b rest =>
    have hblen : b.length = ne := hb b (by simp)
    have hbne : b ≠ [] := by
      intro hc
      rw [hc] at hblen
      simp at hblen
      omega
    show isOkE (episodeAccumGo fps ne 1
      (some (compile_episode_data fps ((0 : ℤ) * ne) 0 b)) rest) = true
    refine episodeAccumGo_ok fps ne hne rest 1 _ (fun x hx => hb x (by simp [hx])) ?_ ?_
    · rw [compile_episode_data_epIdx_getLast fps _ _ b hbne, hblen]
      congr 1
      have : ((ne - 1 : ℕ) : ℤ) = (ne : ℤ) - 1 := by
        push_cast [hne]
        ring
      rw [this]
      push_cast
      ring
    · exact compile_episode_data_idx_getLast_isSome fps _ _ b hbne

/-- Witness for `eval_policy_episode_data_continuity`: two batches of two
one-step episodes each. -/
theorem eval_policy_episode_data_continuity_witness :
    isOkE (episodeAccumGo 1 2 0 (none : Option (BatchRecord ℤ ℤ))
      [[(rdW, 0), (rdW, 0)], [(rdW, 0), (rdW, 0)]]) = true :=
  eval_policy_episode_data_continuity 1 2 [[(rdW, 0), (rdW, 0)], [(rdW, 0), (rdW, 0)]]
    (by decide) (by decide)

/-! ### C8: `start_seed=None` and the strict zip -/

theorem seedsAccum_none (ne : ℕ) :
    ∀ nb, seedsAccum none ne nb = List.replicate nb none
  | 0 => rfl
  | b + 1 => by
    show seedsAccum none ne b ++ [none] = _
    rw [seedsAccum_none ne b, ← List.replicate_succ']

theorem zip4Strict_short_fourth {a b c d : Type} :
    ∀ (as : List a) (bs : List b) (cs : List c) (ds : List d),
    as.length = bs.length → as.length = cs.length → ds.length < as.length →
    zip4Strict as bs cs ds = .error .valueError
  | [], _, _, _, _, _, h => absurd h (by simp)
  | _ :: _, [], _, _, hb, _, _ => by simp at hb
  | _ :: _, _ :: _, [], _, _, hc, _ => by simp at hc
  | _ :: _, _ :: _, _ :: _, [], _, _, _ => rfl
  | x :: xs, y :: ys, z :: zs, w :: ws, hb, hc, hd => by
    have ih := zip4Strict_short_fourth xs ys zs ws (by simpa using hb)
      (by simpa using hc) (by simpa using hd)
    simp [zip4Strict, ih]

/-- C8: with `start_seed=None` and more episodes than batches, the
`per_episode` construction fails: each batch appends a single `None` seed
entry, so `all_seeds[:n_episodes]` has `n_batches` entries against
`n_episodes` metric entries, and `zip(..., strict=True)` raises
`ValueError`. -/
theorem eval_policy_none_seed_value_error (nep ne : ℕ) (sums maxs : List ℚ)
    (succs : List Bool) (h1 : 1 < ne) (h2 : n_batches nep ne < nep)
    (hs : sums.length = n_batches nep ne * ne)
    (hm : maxs.length = n_batches nep ne * ne)
    (hc : succs.length = n_batches nep ne * ne) :
    per_episode_build nep sums maxs succs (seedsAccum none ne (n_batches nep ne)) =
      .error .valueError := by
  have hge : nep ≤ n_batches nep ne * ne := n_batches_mul_ge nep ne (by omega)
  unfold per_episode_build
  apply zip4Strict_short_fourth
  · rw [List.length_take, List.length_take, hs, hm]
  · rw [List.length_take, List.length_take, hs, hc]
  · rw [List.length_take, List.length_take, hs, seedsAccum_none,
      List.length_replicate]
    omega

/-- Witness for `eval_policy_none_seed_value_error`: `n_episodes = 3`,
`num_envs = 2` (2 batches, 4 produced episodes, 2 `None` seed entries). -/
theorem eval_policy_none_seed_value_error_witness :
    per_episode_build 3 [1, 2, 3, 4] [1, 2, 3, 4] [false, false, false, false]
      (seedsAccum none 2 (n_batches 3 2)) = .error .valueError :=
  eval_policy_none_seed_value_error 3 2 [1, 2, 3, 4] [1, 2, 3, 4]
    [false, false, false, false] (by decide) (by decide) (by decide) (by decide)
    (by decide)

/-! ### C7: eager configuration validation -/

theorem cropCheck_eq_any (ch cw : ℕ) :
    ∀ (shapes : List (String × List ℕ)),
    (∀ p ∈ shapes, pyStartsWith p.1 "observation.image" = true → 3 ≤ p.2.length) →
    cropCheck ch cw shapes = .ok (shapes.any (fun p =>
      pyStartsWith p.1 "observation.image" &&
        (decide (ch > p.2.getD 1 0) || decide (cw > p.2.getD 2 0))))
  | [], _ => rfl
  | (k, shape) :: rest, hwf => by
    have ih := cropCheck_eq_any ch cw rest
      (fun p hp => hwf p (List.mem_cons_of_mem _ hp))
    by_cases hk : pyStartsWith k "observation.image" = true
    · have hlen : 3 ≤ shape.length := hwf (k, shape) (by simp) hk
      have hn1 : ¬ shape.length ≤ 1 := by omega
      have hn2 : ¬ shape.length ≤ 2 := by omega
      by_cases h1 : shape[1]?.getD 0 < ch
      · simp [cropCheck, List.any_cons, hk, hn1, hn2, h1]
      · by_cases h2 : shape[2]?.getD 0 < cw
        · simp [cropCheck, List.any_cons, hk, hn1, hn2, h1, h2]
        · simp [cropCheck, List.any_cons, hk, hn1, hn2, h1, h2, ih]
    · rw [Bool.not_eq_true] at hk
      simp [cropCheck, List.any_cons, hk, ih]

/-- C7: `DiffusionConfig.__post_init__` raises `ValueError` exactly when the
backbone is not a resnet variant, the crop shape exceeds an image input shape
in either dimension, the prediction type is not `epsilon`/`sample`, or the
noise scheduler is not `DDPM`/`DDIM` (for well-formed image shape entries);
and `eval.py`'s `main` raises `ValueError` on `batch_size > n_episodes`
before any environment is created. -/
theorem diffusion_config_validation (c : DiffusionConfig) (bs nep : ℕ)
    (hwf : ∀ p ∈ c.input_shapes, pyStartsWith p.1 "observation.image" = true →
      3 ≤ p.2.length)
    (hbs : nep < bs) :
    (postInit c = .error .valueError ↔
      (pyStartsWith c.vision_backbone "resnet" = false ∨
       cropViolation c = true ∨
       (["epsilon", "sample"].contains c.prediction_type) = false ∨
       (["DDPM", "DDIM"].contains c.noise_scheduler_type) = false)) ∧
    evalMainTrace bs nep = ([], .error .valueError) := by
  refine ⟨?_, by simp [evalMainTrace, hbs]⟩
  by_cases hvb : pyStartsWith c.vision_backbone "resnet" = true
  · cases hcrop : c.crop_shape with
    | none =>
      have hcv : cropViolation c = false := by
        unfold cropViolation
        rw [hcrop]
      by_cases hp : (["epsilon", "sample"].contains c.prediction_type) = true
      · have hp' : c.prediction_type = "epsilon" ∨ c.prediction_type = "sample" := by
          simpa using hp
        by_cases hn : (["DDPM", "DDIM"].contains c.noise_scheduler_type) = true
        · have hn' : c.noise_scheduler_type = "DDPM" ∨
              c.noise_scheduler_type = "DDIM" := by
            simpa using hn
          rcases hp' with hpe | hpe <;> rcases hn' with hne | hne <;>
            simp [postInit, validPredSched, hvb, hcrop, hcv, hpe, hne]
        · rw [Bool.not_eq_true] at hn
          have hn1 : c.noise_scheduler_type ≠ "DDPM" := by
            intro hx
            rw [hx] at hn
            simp at hn
          have hn2 : c.noise_scheduler_type ≠ "DDIM" := by
            intro hx
            rw [hx] at hn
            simp at hn
          rcases hp' with hpe | hpe <;>
            simp [postInit, validPredSched, hvb, hcrop, hcv, hpe, hn1, hn2]
      · rw [Bool.not_eq_true] at hp
        have hp1 : c.prediction_type ≠ "epsilon" := by
          intro hx
          rw [hx] at hp
          simp at hp
        have hp2 : c.prediction_type ≠ "sample" := by
          intro hx
          rw [hx] at hp
          simp at hp
        simp [postInit, validPredSched, hvb, hcrop, hcv, hp1, hp2]
    | some p =>
      obtain ⟨ch, cw⟩ := p
      have hcc := cropCheck_eq_any ch cw c.input_shapes hwf
      have hcv : cropViolation c = c.input_shapes.any (fun p =>
          pyStartsWith p.1 "observation.image" &&
            (decide (ch > p.2.getD 1 0) || decide (cw > p.2.getD 2 0))) := by
        unfold cropViolation
        rw [hcrop]
      cases hany : c.input_shapes.any (fun p =>
          pyStartsWith p.1 "observation.image" &&
            (decide (ch > p.2.getD 1 0) || decide (cw > p.2.getD 2 0))) with
      | true =>
        rw [hany] at hcc hcv
        simp [postInit, hvb, hcrop, hcc, hcv]
      | false =>
        rw [hany] at hcc hcv
        by_cases hp : (["epsilon", "sample"].contains c.prediction_type) = true
        · have hp' : c.prediction_type = "epsilon" ∨ c.prediction_type = "sample" := by
            simpa using hp
          by_cases hn : (["DDPM", "DDIM"].contains c.noise_scheduler_type) = true
          · have hn' : c.noise_scheduler_type = "DDPM" ∨
                c.noise_scheduler_type = "DDIM" := by
              simpa using hn
            rcases hp' with hpe | hpe <;> rcases hn' with hne | hne <;>
              simp [postInit, validPredSched, hvb, hcrop, hcc, hcv, hpe, hne]
          · rw [Bool.not_eq_true] at hn
            have hn1 : c.noise_scheduler_type ≠ "DDPM" := by
              intro hx
              rw [hx] at hn
              simp at hn
            have hn2 : c.noise_scheduler_type ≠ "DDIM" := by
              intro hx
              rw [hx] at hn
              simp at hn
            rcases hp' with hpe | hpe <;>
              simp [postInit, validPredSched, hvb, hcrop, hcc, hcv, hpe, hn1, hn2]
        · rw [Bool.not_eq_true] at hp
          have hp1 : c.prediction_type ≠ "epsilon" := by
            intro hx
            rw [hx] at hp
            simp at hp
          have hp2 : c.prediction_type ≠ "sample" := by
            intro hx
            rw [hx] at hp
            simp at hp
          simp [postInit, validPredSched, hvb, hcrop, hcc, hcv, hp1, hp2]
  · rw [Bool.not_eq_true] at hvb
    simp [postInit, hvb]

/-- Witness for `diffusion_config_validation`: the library's default
configuration (resnet18 backbone, 84x84 crop inside a 3x96x96 image,
epsilon prediction, DDPM scheduler) together with `batch_size = 4 >
n_episodes = 2`. -/
theorem diffusion_config_validation_witness :
    (postInit ⟨"resnet18", some (84, 84),
        [("observation.image", [3, 96, 96]), ("observation.state", [2])],
        "epsilon", "DDPM"⟩ = .error .valueError ↔
      (pyStartsWith "resnet18" "resnet" = false ∨
       cropViolation ⟨"resnet18", some (84, 84),
          [("observation.image", [3, 96, 96]), ("observation.state", [2])],
          "epsilon", "DDPM"⟩ = true ∨
       (["epsilon", "sample"].contains "epsilon") = false ∨
       (["DDPM", "DDIM"].contains "DDPM") = false)) ∧
    evalMainTrace 4 2 = ([], .error .valueError) :=
  diffusion_config_validation
    ⟨"resnet18", some (84, 84),
      [("observation.image", [3, 96, 96]), ("observation.state", [2])],
      "epsilon", "DDPM"⟩ 4 2 (by decide) (by decide)

/-! ### C6, C9, C10: the hardware control loop -/

/-- C6: in every control cycle after the first in which the policy wrapper
returns no fresh action sequence (`None` or length at most 1), the applied
action equals the `next_action` cached in the prior cycle, the cycle is
flagged as dropped, and the iteration completes normally (the loop continues
with the fallback action instead of stalling). -/
theorem hw_dropped_cycle_fallback (m : ℚ) (ms : ℕ) (fp : ℚ) (success : Bool)
    (seq : Option (List ℚ)) (st : RealState)
    (hstep : 1 ≤ st.step)
    (hstale : seq = none ∨ ∃ s, seq = some s ∧ s.length ≤ 1)
    (hms : st.step + 1 < ms) :
    realIter (some m) (some ms) fp false false success seq st =
      .ok ⟨{ step := st.step + 1
             next_action := st.next_action
             relative_action := some (max (-m) (min st.next_action m))
             next_done := st.next_done ++ [success]
             actions := st.actions ++ [max (-m) (min st.next_action m)] },
           st.next_action, true, success⟩ := by
  have hne0 : st.step ≠ 0 := by omega
  have hsel : selectBufferedAction st.step st.next_action seq =
      .ok (st.next_action, st.next_action, true) := by
    rcases hstale with h | ⟨s, hs, hlen⟩
    · simp [selectBufferedAction, hne0, h]
    · subst hs
      match s, hlen with
      | [], _ => simp [selectBufferedAction, hne0]
      | [a], _ => simp [selectBufferedAction, hne0]
  have h0 : 0 < st.step := by omega
  have hnotge : ¬ st.step + 1 ≥ ms := by omega
  simp [realIter, hsel, h0, hnotge, List.getLastD_concat]

/-- Witness for `hw_dropped_cycle_fallback`: step 1, cached next action 2,
`relative_actions_max = 1`, no fresh sequence (`None`). -/
theorem hw_dropped_cycle_fallback_witness :
    realIter (some 1) (some 10) 0 false false false none ⟨1, 2, some 0, [], []⟩ =
      .ok ⟨{ step := 2
             next_action := 2
             relative_action := some (max (-1) (min 2 1))
             next_done := [false]
             actions := [max (-1) (min 2 1)] },
           2, true, false⟩ := by
  have h := hw_dropped_cycle_fallback 1 10 0 false none ⟨1, 2, some 0, [], []⟩
    (by decide) (Or.inl rfl) (by decide)
  simpa using h

/-- C9: with the default `max_steps=None` (which is what the script's own
`__main__` entry point passes), the very first control-loop iteration (a
warmup cycle, since `warmup_s` defaults to 5 seconds) reaches the comparison
`step >= max_steps` and raises `TypeError`; the hardware rollout never
completes a single cycle under the default arguments. -/
theorem hw_default_max_steps_type_error (ram : Option ℚ) (fp : ℚ)
    (success : Bool) (a0 : ℚ) (s : List ℚ) (st : RealState)
    (hstep : st.step = 0) :
    realIter ram rollout_default_max_steps fp true false success
      (some (a0 :: s)) st = .error .typeError := by
  obtain ⟨a, n, d, hres⟩ :
      ∃ a n d, selectBufferedAction st.step st.next_action (some (a0 :: s)) =
        .ok (a, n, d) := by
    cases s with
    | nil => exact ⟨a0, a0, true, by simp [selectBufferedAction, hstep]⟩
    | cons b t => exact ⟨a0, b, false, by simp [selectBufferedAction, hstep]⟩
  simp [realIter, hres, rollout_default_max_steps]

/-- Witness for `hw_default_max_steps_type_error`: the entry point's defaults
(`relative_actions_max = None`, `max_steps = None`), first iteration. -/
theorem hw_default_max_steps_type_error_witness :
    realIter rollout_default_relative_actions_max rollout_default_max_steps 0
      true false false (some [0]) ⟨0, 0, none, [], []⟩ = .error .typeError :=
  hw_default_max_steps_type_error rollout_default_relative_actions_max 0 false
    0 [] ⟨0, 0, none, [], []⟩ rfl

/-- C10: with `relative_actions_max=None` (its default), the first non-warmup
cycle reaches `episodes_data["action"].append(relative_action.numpy())` with
the local `relative_action` never assigned (it is only bound in the
`relative_actions_max is not None` branch) and raises `NameError`:
absolute-action operation can never record an action. -/
theorem hw_absolute_actions_name_error (max_steps : Option ℕ) (fp : ℚ)
    (success quit : Bool) (a0 : ℚ) (s : List ℚ) (st : RealState)
    (hstep : st.step = 0) (hrel : st.relative_action = none) :
    realIter rollout_default_relative_actions_max max_steps fp false quit
      success (some (a0 :: s)) st = .error .nameError := by
  obtain ⟨a, n, d, hres⟩ :
      ∃ a n d, selectBufferedAction st.step st.next_action (some (a0 :: s)) =
        .ok (a, n, d) := by
    cases s with
    | nil => exact ⟨a0, a0, true, by simp [selectBufferedAction, hstep]⟩
    | cons b t => exact ⟨a0, b, false, by simp [selectBufferedAction, hstep]⟩
  rw [hstep] at hres
  simp [realIter, hres, rollout_default_relative_actions_max, hrel, hstep]

/-- Witness for `hw_absolute_actions_name_error`: first non-warmup cycle with
an unbound `relative_action` and a fresh two-action sequence. -/
theorem hw_absolute_actions_name_error_witness :
    realIter rollout_default_relative_actions_max (some 100) 0 false false
      false (some [3, 4]) ⟨0, 0, none, [], []⟩ = .error .nameError :=
  hw_absolute_actions_name_error (some 100) 0 false false 3 [4]
    ⟨0, 0, none, [], []⟩ rfl rfl
/-- Warmup cycles never advance the step counter and never bind
`relative_action`: the first non-warmup cycle is therefore entered with
`step = 0` and `relative_action` still unbound, as assumed by the theorems
about the post-warmup behaviour. -/
theorem realIter_warmup_preserves (ram : Option ℚ) (mso : Option ℕ) (fp : ℚ)
    (quit success : Bool) (seq : Option (List ℚ)) (st : RealState)
    (r : IterResult)
    (h : realIter ram mso fp true quit success seq st = .ok r) :
    r.state.step = st.step ∧ r.state.relative_action = st.relative_action := by
  simp only [realIter] at h
  cases hsel : selectBufferedAction st.step st.next_action seq with
  | error e =>
    rw [hsel] at h
    simp at h
  | ok res =>
    obtain ⟨a, n, d⟩ := res
    rw [hsel] at h
    cases quit with
    | true =>
      simp at h
      subst h
      exact ⟨rfl, rfl⟩
    | false =>
      cases mso with
      | none => simp at h
      | some ms =>
        simp at h
        by_cases hcond : ms ≤ st.step
        · rw [if_pos hcond] at h
          cases hdn : setLastTrue st.next_done with
          | error e =>
            rw [hdn] at h
            simp at h
          | ok done2 =>
            rw [hdn] at h
            simp at h
            subst h
            exact ⟨rfl, rfl⟩
        · rw [if_neg hcond] at h
          simp at h
          subst h
          exact ⟨rfl, rfl⟩
